import Mathlib

/-!
Shallow embedding of the feedi sync & ranking engine
(`feedi/models.py`, `feedi/tasks.py`, `src/feedi/parser.py`)
together with theorems checking the natural-language specification
against it.

Conventions of the embedding:
* timestamps (`datetime` values) are absolute instants modelled as `Int`
  (seconds); `datetime.timedelta(days=n)` / `(hours=n)` become `days n` /
  `hours n`;
* SQL tables are lists of rows; a query is a Lean function from the
  database state to the list of selected rows; `ORDER BY` is modelled with
  `List.insertionSort` over the order-by key of the query;
* Python dict/attribute access that can raise `KeyError`, and explicit
  `raise`, are modelled with `Except String`;
* outbound network probes made during normalization (HEAD check of an
  avatar, GET of the entry page for meta tags) are modelled as
  already-resolved data carried on the raw entry record, since the source
  treats their results as opaque inputs.
-/

deriving instance DecidableEq for Except

namespace Feedi

/-- Absolute timestamps, in seconds. -/
abbrev Time := Int

/-- datetime.timedelta(days=n), in seconds. -/
def days (n : Int) : Time := n * 86400

/-- datetime.timedelta(hours=n), in seconds. -/
def hours (n : Int) : Time := n * 3600

/-- Kernel-computable check that the first character list is a leading
segment of the second (helper for the substring test below). -/
def leadMatch : List Char → List Char → Bool
  | [], _ => true
  | _ :: _, [] => false
  | a :: as, b :: bs => a == b && leadMatch as bs

/-- Kernel-computable check that `needle` occurs as a contiguous segment of
the second list (helper for the substring test below). -/
def hasSub (needle : List Char) : List Char → Bool
  | [] => needle.isEmpty
  | c :: rest => leadMatch needle (c :: rest) || hasSub needle rest

/-- Python's substring operator `needle in hay` on strings. -/
def strContains (hay needle : String) : Bool :=
  hasSub needle.data hay.data

/-- ASCII lowercasing of one character (the `str.lower()` cases exercised
by the compatibility predicates are ASCII). -/
def charLower (c : Char) : Char :=
  if 'A' ≤ c ∧ c ≤ 'Z' then Char.ofNat (c.toNat + 32) else c

/-- Python's `str.lower()` (ASCII fragment). -/
def lowerStr (s : String) : String := ⟨s.data.map charLower⟩

/-- models.py `Feed` row: the columns relevant to the sync & ranking engine.
`frequency_rank` is the derived rank attribute written by the batch
recompute `set_frequency_ranks` (nullable until computed). -/
structure Feed where
  id : Nat
  type : String := "rss"
  name : String
  folder : Option String := none
  frequency_rank : Option Nat := none
deriving DecidableEq

/-- models.py `Feed.freq_bucket`: the function registered into the sqlite
engine (`create_function('freq_bucket', ...)`) and called from the rank
subquery of `Entry.select_page_by_frequency`. -/
def Feed.freq_bucket (count : Nat) : Nat :=
  if count ≤ 2 then 1
  else if count < 5 then 2
  else if count < 15 then 3
  else if count < 45 then 3
  else 5

/-- The canonical entry values produced by the normalizer and passed to the
upsert (`BaseParser.FIELDS`); these are exactly the `Entry` columns that the
sync write path sets, in source order. -/
structure CanonicalEntry where
  title : String
  title_url : String
  avatar_url : Option String := none
  username : Option String := none
  body : Option String := none
  media_url : Option String := none
  remote_id : String
  remote_created : Time
  remote_updated : Time
deriving DecidableEq

/-- models.py `Entry` row. The columns written by the sync path from the
parsed values dict are grouped in `vals`; `created`/`updated` are the
store-managed timestamps and `deleted`/`favorited`/`pinned` are the
user-set timestamp markers (NULL when unset). -/
structure Entry where
  id : Nat
  feed_id : Nat
  vals : CanonicalEntry
  created : Time
  updated : Time
  deleted : Option Time := none
  favorited : Option Time := none
  pinned : Option Time := none
deriving DecidableEq

/-- Accessor for the `username` column (lives in the parsed values group). -/
def Entry.username (e : Entry) : Option String := e.vals.username

/-- Accessor for the `remote_updated` column. -/
def Entry.remote_updated (e : Entry) : Time := e.vals.remote_updated

/-- The persistent state: the `feeds` and `entries` tables. -/
structure DB where
  feeds : List Feed := []
  entries : List Entry := []
deriving DecidableEq

/-- The `(feed_id, remote_id)` upsert conflict key
(models.py `Entry.__table_args__` unique constraint). -/
def keyMatch (feedId : Nat) (rid : String) (r : Entry) : Bool :=
  r.feed_id == feedId && r.vals.remote_id == rid

/-- One `INSERT ... ON CONFLICT (feed_id, remote_id) DO UPDATE SET values`
statement as emitted by tasks.py `upsert_entries`: on conflict the row's
columns named in the values dict (the parsed values plus `updated` and
`feed_id`) are overwritten; on a fresh insert the column defaults give
`created = now` and NULL markers. -/
def upsertOne (now : Time) (feedId : Nat) (v : CanonicalEntry)
    (table : List Entry) : List Entry :=
  if table.any (keyMatch feedId v.remote_id) then
    table.map (fun r =>
      if keyMatch feedId v.remote_id r then
        { r with vals := v, updated := now, feed_id := feedId }
      else r)
  else
    table ++ [{ id := table.length, feed_id := feedId, vals := v,
                created := now, updated := now }]

/-- tasks.py `upsert_entries(feed_id, entries_values)`: one upsert (and
commit) per entry, in order. -/
def upsert_entries (feedId : Nat) (now : Time) (vs : List CanonicalEntry)
    (table : List Entry) : List Entry :=
  vs.foldl (fun t v => upsertOne now feedId v t) table

/-- The rank mapping inlined in tasks.py `set_frequency_ranks` (the
`if count <= 2 ... else 5` chain). -/
def rank_of_count (count : Nat) : Nat :=
  if count ≤ 2 then 1
  else if count < 5 then 2
  else if count < 15 then 3
  else if count < 45 then 3
  else if count < 300 then 4
  else 5

/-- Count of a feed's entries with `remote_updated >= now - 14 days`: the
per-feed group count of the `Feed JOIN Entry` queries in tasks.py
`set_frequency_ranks` and in the rank subquery of
`Entry.select_page_by_frequency`. -/
def feedRecentCount (db : DB) (now : Time) (feedId : Nat) : Nat :=
  (db.entries.filter (fun e =>
    e.feed_id == feedId && decide (now - days 14 ≤ e.vals.remote_updated))).length

/-- tasks.py `set_frequency_ranks`: batch recompute of every feed's
`frequency_rank`. The grouped join only yields rows for feeds having at
least one entry in the 14-day window, so feeds with no qualifying entry
keep their previous rank. -/
def set_frequency_ranks (db : DB) (now : Time) : DB :=
  { db with feeds := db.feeds.map (fun f =>
      let c := feedRecentCount db now f.id
      if c == 0 then f
      else { f with frequency_rank := some (rank_of_count c) }) }

/-- The keyword filters accepted by models.py `Entry._filtered_query`
(all default to None/absent; `deleted`/`favorited` are used for their
truthiness only). -/
structure Filters where
  deleted : Bool := false
  favorited : Bool := false
  feed_name : Option String := none
  folder : Option String := none
  username : Option String := none
deriving DecidableEq

/-- models.py `Entry._filtered_query`: the AND-composed base query. -/
def filtered_query (db : DB) (f : Filters) : List Entry :=
  db.entries.filter (fun e =>
    (if f.deleted then e.deleted.isSome else e.deleted.isNone) &&
    (!f.favorited || e.favorited.isSome) &&
    (match f.feed_name with
     | none => true
     | some n => db.feeds.any (fun fd => fd.id == e.feed_id && fd.name == n)) &&
    (match f.folder with
     | none => true
     | some fo => db.feeds.any (fun fd => fd.id == e.feed_id && fd.folder == some fo)) &&
    (match f.username with
     | none => true
     | some u => e.username == some u))

/-- The `ORDER BY pinned DESC` key of `select_pinned`. -/
def pinned_desc (a b : Entry) : Prop := b.pinned.getD 0 ≤ a.pinned.getD 0

instance : DecidableRel pinned_desc := fun a b => by
  unfold pinned_desc; infer_instance

/-- models.py `Entry.select_pinned`: all pinned entries matching the
filters, ordered by pin time descending, unpaginated. -/
def select_pinned (db : DB) (f : Filters) : List Entry :=
  ((filtered_query db f).filter (fun e => e.pinned.isSome)).insertionSort
    pinned_desc

/-- The `ORDER BY remote_updated DESC` key of the chronological query. -/
def remote_updated_desc (a b : Entry) : Prop :=
  b.remote_updated ≤ a.remote_updated

instance : DecidableRel remote_updated_desc := fun a b => by
  unfold remote_updated_desc; infer_instance

instance : IsTotal Entry remote_updated_desc :=
  ⟨fun a b => le_total b.remote_updated a.remote_updated⟩

instance : IsTrans Entry remote_updated_desc :=
  ⟨fun _ _ _ hab hbc => le_trans hbc hab⟩

/-- models.py `Entry.select_page_chronologically`: filters, optional
exclusive `older_than` cursor, reverse chronological order, `LIMIT limit`. -/
def select_page_chronologically (db : DB) (limit : Nat)
    (older_than : Option Time) (f : Filters) : List Entry :=
  let q := filtered_query db f
  let q := match older_than with
    | some t => q.filter (fun e : Entry => decide (e.remote_updated < t))
    | none => q
  (q.insertionSort remote_updated_desc).take limit

/-- The per-feed rank of the subquery of `Entry.select_page_by_frequency`:
`freq_bucket` of the feed's 14-day entry count. The grouped join produces
no row (`none`) for a feed with no entry in the window. -/
def entryRank (db : DB) (now : Time) (e : Entry) : Option Nat :=
  let c := feedRecentCount db now e.feed_id
  if c == 0 then none else some (Feed.freq_bucket c)

/-- The first order-by expression of `select_page_by_frequency`:
`(start_at > remote_updated) & (remote_updated < start_at - 48 hours)`,
false (recent bucket) sorting before true (old bucket). -/
def oldBucket (start_at : Time) (e : Entry) : Bool :=
  decide (e.remote_updated < start_at) &&
  decide (e.remote_updated < start_at - hours 48)

/-- Lexicographic order on (bucket, rank, negated remote_updated). -/
def lex3Le (x y : Nat × Nat × Int) : Prop :=
  x.1 < y.1 ∨ (x.1 = y.1 ∧
    (x.2.1 < y.2.1 ∨ (x.2.1 = y.2.1 ∧ x.2.2 ≤ y.2.2)))

instance : DecidableRel lex3Le := fun x y => by
  unfold lex3Le; infer_instance

/-- The full ORDER BY key of `select_page_by_frequency`: old-bucket flag
ascending, subquery rank ascending, `remote_updated` descending. -/
def freq_key (db : DB) (now start_at : Time) (e : Entry) : Nat × Nat × Int :=
  ((oldBucket start_at e).toNat, (entryRank db now e).getD 0, -e.remote_updated)

/-- The ORDER BY relation of `select_page_by_frequency`. -/
def freq_le (db : DB) (now start_at : Time) (a b : Entry) : Prop :=
  lex3Le (freq_key db now start_at a) (freq_key db now start_at b)

instance (db : DB) (now start_at : Time) :
    DecidableRel (freq_le db now start_at) := fun a b => by
  unfold freq_le; infer_instance

instance (db : DB) (now start_at : Time) :
    IsTotal Entry (freq_le db now start_at) :=
  ⟨fun a b => by unfold freq_le lex3Le; omega⟩

instance (db : DB) (now start_at : Time) :
    IsTrans Entry (freq_le db now start_at) :=
  ⟨fun a b c hab hbc => by
    unfold freq_le lex3Le at *; omega⟩

/-- The joined row set of `select_page_by_frequency`: the filtered entries
inner-joined with `Feed` and with the rank subquery (an entry survives the
join only if its feed row exists and the subquery has a rank row for that
feed, i.e. the feed has at least one entry in the 14-day window). -/
def freq_joined (db : DB) (f : Filters) (now : Time) : List Entry :=
  (filtered_query db f).filter (fun e =>
    db.feeds.any (fun fd => fd.id == e.feed_id) && (entryRank db now e).isSome)

/-- The ordered row sequence of the frequency-weighted query (its ORDER BY
applied to the joined rows, before LIMIT/pagination). -/
def freq_ordered (db : DB) (f : Filters) (now start_at : Time) : List Entry :=
  (freq_joined db f now).insertionSort (freq_le db now start_at)

/-- models.py `Entry.select_page_by_frequency`: the ordered rows, truncated
by `.limit(limit)` and then sliced by `db.paginate(query, page=page)`
(page numbers start at 1; flask-sqlalchemy's default per_page of 20 is
used since the source passes none). `now` is the clock reading used to
build the 14-day window of the rank subquery. -/
def select_page_by_frequency (db : DB) (f : Filters) (limit : Nat)
    (start_at : Time) (page : Nat) (now : Time) : List Entry :=
  (((freq_ordered db f now start_at).take limit).drop ((page - 1) * 20)).take 20

/-- The summary payload of a raw entry, as decoded markup: the texts of its
paragraph elements (after image removal) and the `src` attributes of the
image elements found in it. The BeautifulSoup parse of the raw HTML string
is modelled as this already-decoded structure. -/
structure SummaryDoc where
  paragraphs : List String := []
  images : List String := []
deriving DecidableEq

/-- One raw entry as handed to the normalizer by feedparser: optional
fields model dict-key presence. `icon_head_ok` carries the result of the
HEAD probe of `source.icon`; `page_meta_image` carries the og:image /
twitter:image meta tag, if any, of the entry page fetched as a last
resort; `media_content_image` is `media_content[0].url` when that element
is present and tagged with type image. -/
structure RawEntry where
  link : Option String := none
  summary : Option SummaryDoc := none
  title : Option String := none
  author : Option String := none
  source_icon : Option String := none
  icon_head_ok : Bool := false
  media_thumbnail : Option String := none
  media_content_image : Option String := none
  page_meta_image : Option String := none
  id : Option String := none
  published_parsed : Option Time := none
  updated_parsed : Option Time := none
deriving DecidableEq

/-- Python dict access `entry[k]`, raising KeyError when the key is
absent. -/
def req (key : String) : Option α → Except String α
  | some a => Except.ok a
  | none => Except.error ("KeyError: " ++ key)

/-- parser.py `to_datetime`: a source-provided struct_time converted to an
absolute timestamp (struct_time values are modelled as the absolute
instants they decode to). -/
def to_datetime (t : Time) : Time := t

namespace BaseParser

/-- parser.py `BaseParser.parse_title`: `entry['title']`. -/
def parse_title (e : RawEntry) : Except String String := req "title" e.title

/-- parser.py `BaseParser.parse_title_url`: `entry['link']`. -/
def parse_title_url (e : RawEntry) : Except String String := req "link" e.link

/-- parser.py `BaseParser.parse_username`: `entry.get('author')`. -/
def parse_username (e : RawEntry) : Except String (Option String) :=
  Except.ok e.author

/-- parser.py `BaseParser.parse_avatar_url`: the entry-level
`source.icon`, kept only when the HEAD probe succeeds. -/
def parse_avatar_url (e : RawEntry) : Except String (Option String) :=
  Except.ok (match e.source_icon with
    | some url => if e.icon_head_ok then some url else none
    | none => none)

/-- parser.py `BaseParser.parse_body`: parse `entry['summary']`, drop
images, and concatenate the first two paragraph elements with a newline. -/
def parse_body (e : RawEntry) : Except String (Option String) := do
  let doc ← req "summary" e.summary
  return some (match doc.paragraphs with
    | [] => ""
    | [p] => p
    | p1 :: p2 :: _ => p1 ++ "\n" ++ p2)

/-- parser.py `BaseParser.parse_media_url`: structured thumbnail, then
image-typed media content, then first image of the summary markup, then
the og:image / twitter:image meta tag of the fetched entry page. -/
def parse_media_url (e : RawEntry) : Except String (Option String) := do
  match e.media_thumbnail with
  | some url => return some url
  | none =>
    match e.media_content_image with
    | some url => return some url
    | none =>
      let doc ← req "summary" e.summary
      match doc.images.head? with
      | some src => return some src
      | none =>
        let _ ← req "link" e.link
        return e.page_meta_image

/-- parser.py `BaseParser.parse_remote_id`: `entry['id']`. -/
def parse_remote_id (e : RawEntry) : Except String String := req "id" e.id

/-- parser.py `BaseParser.parse_remote_created`:
`to_datetime(entry['published_parsed'])`. -/
def parse_remote_created (e : RawEntry) : Except String Time := do
  let t ← req "published_parsed" e.published_parsed
  return to_datetime t

/-- parser.py `BaseParser.parse_remote_updated`:
`to_datetime(entry['updated_parsed'])`. -/
def parse_remote_updated (e : RawEntry) : Except String Time := do
  let t ← req "updated_parsed" e.updated_parsed
  return to_datetime t

/-- parser.py `BaseParser.parse`: reject entries missing `link` or
`summary`, then derive each of `FIELDS` in source order; any failing field
derivation fails the entry. -/
def parse (e : RawEntry) : Except String CanonicalEntry := do
  if e.link.isNone || e.summary.isNone then
    throw "entry seems malformed"
  let title ← parse_title e
  let title_url ← parse_title_url e
  let avatar_url ← parse_avatar_url e
  let username ← parse_username e
  let body ← parse_body e
  let media_url ← parse_media_url e
  let remote_id ← parse_remote_id e
  let remote_created ← parse_remote_created e
  let remote_updated ← parse_remote_updated e
  return { title, title_url, avatar_url, username, body, media_url,
           remote_id, remote_created, remote_updated }

end BaseParser

/-- The feed-level metadata consulted by the compatibility predicates:
`feed_data['feed']['link']` and `feed_data['feed'].get('generator', '')`. -/
structure FeedData where
  link : String := ""
  generator : Option String := none
deriving DecidableEq

/-- parser.py `LinkAggregatorParser.is_compatible`. -/
def LinkAggregatorParser.is_compatible (_feed_url : String) (fd : FeedData) : Bool :=
  ["lobste.rs", "reddit.com", "news.ycombinator.com"].any
    (fun domain => strContains fd.link domain)

/-- parser.py `MastodonUserParser.is_compatible`. -/
def MastodonUserParser.is_compatible (_feed_url : String) (fd : FeedData) : Bool :=
  strContains (lowerStr (fd.generator.getD "")) "mastodon"

/-- parser.py `GithubFeedParser.is_compatible`. -/
def GithubFeedParser.is_compatible (feed_url : String) (_fd : FeedData) : Bool :=
  strContains feed_url "github.com" && strContains feed_url "private.atom"

/-- parser.py `GoodreadsFeedParser.is_compatible`. -/
def GoodreadsFeedParser.is_compatible (feed_url : String) (_fd : FeedData) : Bool :=
  strContains feed_url "goodreads.com" && strContains feed_url "/home/index_rss"

/-- The normalizer variants (`BaseParser` and its subclasses). -/
inductive ParserKind
  | base
  | linkAggregator
  | mastodonUser
  | githubFeed
  | goodreadsFeed
deriving DecidableEq

/-- The parser-selection loop of parser.py `sync_feed`: iterate
`BaseParser.__subclasses__()` — which CPython yields in class-declaration
order: LinkAggregatorParser, MastodonUserParser, GithubFeedParser,
GoodreadsFeedParser — and pick the first compatible subclass, falling back
to `BaseParser`. -/
def select_parser_cls (feed_url : String) (fd : FeedData) : ParserKind :=
  if LinkAggregatorParser.is_compatible feed_url fd then .linkAggregator
  else if MastodonUserParser.is_compatible feed_url fd then .mastodonUser
  else if GithubFeedParser.is_compatible feed_url fd then .githubFeed
  else if GoodreadsFeedParser.is_compatible feed_url fd then .goodreadsFeed
  else .base

/-- The per-entry loop of parser.py `sync_feed`: parse each raw entry,
skip it (log and continue) when parsing raises, and upsert the parsed
values of the others in order. -/
def sync_feed_entries (feedId : Nat) (now : Time) (raws : List RawEntry)
    (table : List Entry) : List Entry :=
  raws.foldl (fun t e =>
    match BaseParser.parse e with
    | Except.error _ => t
    | Except.ok v => upsertOne now feedId v t) table

/-! Concrete rows and databases used to evaluate the claims on explicit
inputs. -/

/-- Canonical entry values with the given remote id and remote times. -/
def mkVals (rid : String) (ru : Time) : CanonicalEntry :=
  { title := "t", title_url := "u", remote_id := rid,
    remote_created := ru, remote_updated := ru }

/-- A stored entry row with the given id, feed, remote id and remote
times, and no user markers. -/
def mkEntry (i fid : Nat) (rid : String) (ru : Time) : Entry :=
  { id := i, feed_id := fid, vals := mkVals rid ru, created := 0, updated := 0 }

/-- A feed for the chronological pagination example. -/
def chronoFeed : Feed := { id := 1, name := "feedone" }

/-- Database of the chronological pagination example: four entries with
`remote_updated` 10, 9, 8, 7. -/
def chronoDB : DB :=
  { feeds := [chronoFeed],
    entries := [mkEntry 1 1 "a" 10, mkEntry 2 1 "b" 9,
                mkEntry 3 1 "c" 8, mkEntry 4 1 "d" 7] }

/-- Frequency-ordering example, taking the reference instant and the clock
at 0: the entry of the rank-5 feed, updated one hour before. -/
def entryRecentRank5 : Entry := mkEntry 1 1 "a" (-3600)

/-- Frequency-ordering example: the entry of the rank-1 feed, updated 72
hours before. -/
def entryOldRank1 : Entry := mkEntry 2 2 "b" (-259200)

/-- Database of the frequency-ordering example: feed 1 has 45 entries in
the 14-day window (rank 5), feed 2 has one (rank 1). -/
def freqDB : DB :=
  { feeds := [{ id := 1, name := "busy" }, { id := 2, name := "quiet" }],
    entries := entryRecentRank5 :: entryOldRank1 ::
      (List.range 44).map (fun i => mkEntry (3 + i) 1 "f" (-(400000 + i))) }

/-- Database of the stale-feed example: a single feed whose only entry was
updated 15 days before the clock reading 0. -/
def staleDB : DB :=
  { feeds := [{ id := 1, name := "stale" }],
    entries := [mkEntry 1 1 "x" (-1296000)] }

/-- A github activity-feed URL that also, hypothetically, comes with
mastodon generator metadata. -/
def githubMastodonUrl : String := "https://github.com/jorge.private.atom?token=abc"

/-- Feed-level metadata whose generator matches the mastodon predicate. -/
def githubMastodonFeed : FeedData :=
  { link := "https://github.com/jorge", generator := some "Mastodon 4.1.2" }

/-- Feed-level metadata with no generator field. -/
def plainFeedData : FeedData := { link := "https://example.org" }

/-- A well-formed raw entry with all required fields. -/
def goodRaw (rid : String) : RawEntry :=
  { link := some "https://example.com/post", summary := some {},
    title := some "a post", id := some rid,
    published_parsed := some 100, updated_parsed := some 200 }

/-- A raw entry with no summary payload (malformed). -/
def rawNoSummary : RawEntry :=
  { link := some "https://example.com/post", title := some "a post",
    id := some "b", published_parsed := some 100, updated_parsed := some 200 }

/-- A raw entry with the required fields and a source created time, but no
source updated time. -/
def rawMissingUpdated : RawEntry :=
  { link := some "https://example.com/post", summary := some {},
    title := some "a post", id := some "c", published_parsed := some 100 }

/-- The canonical entry produced by normalizing `goodRaw "a"`. -/
def goodParsed : CanonicalEntry :=
  { title := "a post", title_url := "https://example.com/post",
    body := some "", remote_id := "a",
    remote_created := 100, remote_updated := 200 }

end Feedi

namespace Feedi

/-! Theorems settling the claims. -/

/-- C3: the batch frequency ranker maps the count of entries with
`remote_updated` in the last 14 days to a rank by the fixed thresholds
count ≤ 2 → 1, < 5 → 2, < 15 → 3, < 45 → 3, < 300 → 4, ≥ 300 → 5;
concretely 2→1, 4→2, 14→3, 44→3, 299→4, 300→5; and `set_frequency_ranks`
reassigns each feed with a positive 14-day count the rank of its count. -/
theorem C3_batch_rank_thresholds :
    (∀ n : Nat, n ≤ 2 → rank_of_count n = 1) ∧
    (∀ n : Nat, 2 < n → n < 5 → rank_of_count n = 2) ∧
    (∀ n : Nat, 5 ≤ n → n < 15 → rank_of_count n = 3) ∧
    (∀ n : Nat, 15 ≤ n → n < 45 → rank_of_count n = 3) ∧
    (∀ n : Nat, 45 ≤ n → n < 300 → rank_of_count n = 4) ∧
    (∀ n : Nat, 300 ≤ n → rank_of_count n = 5) ∧
    (rank_of_count 2 = 1 ∧ rank_of_count 4 = 2 ∧ rank_of_count 14 = 3 ∧
     rank_of_count 44 = 3 ∧ rank_of_count 299 = 4 ∧ rank_of_count 300 = 5) ∧
    (∀ (db : DB) (now : Time) (f : Feed), f ∈ db.feeds →
      0 < feedRecentCount db now f.id →
      ({ f with
         frequency_rank := some (rank_of_count (feedRecentCount db now f.id)) }
        : Feed) ∈ (set_frequency_ranks db now).feeds) := by
  refine ⟨?_, ?_, ?_, ?_, ?_, ?_, by decide, ?_⟩
  · intro n h; simp only [rank_of_count]; split_ifs <;> omega
  · intro n h h2; simp only [rank_of_count]; split_ifs <;> omega
  · intro n h h2; simp only [rank_of_count]; split_ifs <;> omega
  · intro n h h2; simp only [rank_of_count]; split_ifs <;> omega
  · intro n h h2; simp only [rank_of_count]; split_ifs <;> omega
  · intro n h; simp only [rank_of_count]; split_ifs <;> omega
  · intro db now f hmem hpos
    have h0 : (feedRecentCount db now f.id == 0) = false := by
      simp only [beq_eq_false_iff_ne, ne_eq]
      omega
    unfold set_frequency_ranks
    exact List.mem_map.mpr ⟨f, hmem, by simp [h0]⟩

/-- C3 witness: the thresholds evaluated at 1, 3, 7, 20, 100, 500 and the
batch recompute evaluated on the chronological example database. -/
theorem C3_batch_rank_thresholds_witness :
    rank_of_count 1 = 1 ∧ rank_of_count 3 = 2 ∧ rank_of_count 7 = 3 ∧
    rank_of_count 20 = 3 ∧ rank_of_count 100 = 4 ∧ rank_of_count 500 = 5 ∧
    ({ chronoFeed with
       frequency_rank := some (rank_of_count (feedRecentCount chronoDB 0 chronoFeed.id)) }
      : Feed) ∈ (set_frequency_ranks chronoDB 0).feeds :=
  ⟨C3_batch_rank_thresholds.1 1 (by decide),
   C3_batch_rank_thresholds.2.1 3 (by decide) (by decide),
   C3_batch_rank_thresholds.2.2.1 7 (by decide) (by decide),
   C3_batch_rank_thresholds.2.2.2.1 20 (by decide) (by decide),
   C3_batch_rank_thresholds.2.2.2.2.1 100 (by decide) (by decide),
   C3_batch_rank_thresholds.2.2.2.2.2.1 500 (by decide),
   C3_batch_rank_thresholds.2.2.2.2.2.2.2 chronoDB 0 chronoFeed (by decide)
     (by decide)⟩

/-- C2 counterexample: at a 14-day count of 45 the engine-registered
`Feed.freq_bucket` returns rank 5 while the batch recompute of
`set_frequency_ranks` assigns rank 4, so the two rank computations are not
equivalent and in particular do not both yield 4 on 45 ≤ n < 300. -/
theorem C2_counterexample :
    Feed.freq_bucket 45 = 5 ∧ rank_of_count 45 = 4 ∧
    ¬ Feed.freq_bucket 45 = rank_of_count 45 := by decide

/-- C2 amended: `Feed.freq_bucket` (used by the frequency-weighted query's
rank subquery, which applies it to the positive 14-day count of a feed)
agrees with the rank the batch recompute assigns for every count below 45
and from 300 up, but on 45 ≤ n < 300 `freq_bucket` returns 5 while the
batch recompute assigns 4 (`freq_bucket` lacks the 4 tier). -/
theorem C2_freq_bucket_vs_batch_rank :
    (∀ n : Nat, n < 45 → Feed.freq_bucket n = rank_of_count n) ∧
    (∀ n : Nat, 300 ≤ n → Feed.freq_bucket n = rank_of_count n) ∧
    (∀ n : Nat, 45 ≤ n → n < 300 →
      Feed.freq_bucket n = 5 ∧ rank_of_count n = 4) ∧
    (∀ (db : DB) (now : Time) (e : Entry),
      0 < feedRecentCount db now e.feed_id →
      entryRank db now e =
        some (Feed.freq_bucket (feedRecentCount db now e.feed_id))) := by
  refine ⟨?_, ?_, ?_, ?_⟩
  · intro n h; simp only [Feed.freq_bucket, rank_of_count]
    split_ifs <;> omega
  · intro n h; simp only [Feed.freq_bucket, rank_of_count]
    split_ifs <;> omega
  · intro n h h2
    constructor <;> simp only [Feed.freq_bucket, rank_of_count] <;>
      split_ifs <;> omega
  · intro db now e hpos
    have h0 : (feedRecentCount db now e.feed_id == 0) = false := by
      simp only [beq_eq_false_iff_ne, ne_eq]; omega
    simp [entryRank, h0]

/-- C2 amendment witness: the agreement evaluated at 10 and 400, the
divergence at 100, and the subquery rank on the frequency example. -/
theorem C2_freq_bucket_vs_batch_rank_witness :
    Feed.freq_bucket 10 = rank_of_count 10 ∧
    Feed.freq_bucket 400 = rank_of_count 400 ∧
    (Feed.freq_bucket 100 = 5 ∧ rank_of_count 100 = 4) ∧
    entryRank chronoDB 0 (mkEntry 1 1 "a" 10) =
      some (Feed.freq_bucket (feedRecentCount chronoDB 0 1)) :=
  ⟨C2_freq_bucket_vs_batch_rank.1 10 (by decide),
   C2_freq_bucket_vs_batch_rank.2.1 400 (by decide),
   C2_freq_bucket_vs_batch_rank.2.2.1 100 (by decide) (by decide),
   C2_freq_bucket_vs_batch_rank.2.2.2 chronoDB 0 (mkEntry 1 1 "a" 10)
     (by decide)⟩

/-- C4 counterexample: a feed whose URL contains both github.com and
private.atom, and whose generator metadata also satisfies the mastodon
compatibility predicate, selects the mastodon variant, not the github
variant. -/
theorem C4_counterexample :
    GithubFeedParser.is_compatible githubMastodonUrl githubMastodonFeed = true ∧
    MastodonUserParser.is_compatible githubMastodonUrl githubMastodonFeed = true ∧
    select_parser_cls githubMastodonUrl githubMastodonFeed =
      ParserKind.mastodonUser ∧
    ¬ select_parser_cls githubMastodonUrl githubMastodonFeed =
        ParserKind.githubFeed := by decide

/-- C4 amended: parser selection walks the subclasses in class-declaration
order (link aggregator, mastodon, github, goodreads) and takes the first
compatible one; when a feed matches both the mastodon and github
predicates (and is not a known aggregator) the mastodon variant wins, and
the github variant is selected only when no earlier predicate matches. -/
theorem C4_declaration_order_selection :
    (∀ (url : String) (fd : FeedData),
      LinkAggregatorParser.is_compatible url fd = false →
      MastodonUserParser.is_compatible url fd = true →
      select_parser_cls url fd = ParserKind.mastodonUser) ∧
    (∀ (url : String) (fd : FeedData),
      LinkAggregatorParser.is_compatible url fd = false →
      MastodonUserParser.is_compatible url fd = false →
      GithubFeedParser.is_compatible url fd = true →
      select_parser_cls url fd = ParserKind.githubFeed) := by
  constructor
  · intro url fd h1 h2
    simp [select_parser_cls, h1, h2]
  · intro url fd h1 h2 h3
    simp [select_parser_cls, h1, h2, h3]

/-- Filtering a conditional rewrite of a list: when the rewrite preserves
the predicate, it commutes with the filter. -/
theorem filter_map_upd {p : Entry → Bool} {g : Entry → Entry}
    (hg : ∀ r, p r = true → p (g r) = true) :
    ∀ t : List Entry,
      (t.map (fun r => if p r then g r else r)).filter p =
        (t.filter p).map g := by
  intro t
  induction t with
  | nil => rfl
  | cons r t ih =>
    by_cases hr : p r = true
    · simp [List.filter_cons, hr, hg r hr, ih]
    · have hr' : p r = false := by simp_all
      simp [List.filter_cons, hr', ih]

/-- The rows a single upsert leaves for its conflict key: the updated
existing row when one was there, else the freshly inserted row. -/
theorem upsertOne_filter (now : Time) (fid : Nat) (v : CanonicalEntry)
    (rid : String) (hv : v.remote_id = rid) (t : List Entry)
    (h : (t.filter (keyMatch fid rid)).length ≤ 1) :
    (upsertOne now fid v t).filter (keyMatch fid rid) =
      match t.filter (keyMatch fid rid) with
      | [] => [{ id := t.length, feed_id := fid, vals := v,
                 created := now, updated := now }]
      | r :: _ => [{ r with vals := v, updated := now, feed_id := fid }] := by
  unfold upsertOne
  rw [hv]
  by_cases ha : t.any (keyMatch fid rid) = true
  · rw [if_pos ha]
    have hg : ∀ r : Entry, keyMatch fid rid r = true →
        keyMatch fid rid { r with vals := v, updated := now, feed_id := fid } = true := by
      intro r _
      simp [keyMatch, hv]
    rw [filter_map_upd hg]
    rcases hf : t.filter (keyMatch fid rid) with _ | ⟨r, rest⟩
    · exfalso
      rw [List.any_eq_true] at ha
      obtain ⟨x, hx, hpx⟩ := ha
      have : x ∈ t.filter (keyMatch fid rid) := List.mem_filter.mpr ⟨hx, hpx⟩
      rw [hf] at this
      cases this
    · have : rest = [] := by
        rw [hf] at h
        simpa using List.length_eq_zero.mp (by simpa using h)
      subst this
      rfl
  · rw [if_neg ha]
    have hf : t.filter (keyMatch fid rid) = [] := by
      rw [List.filter_eq_nil_iff]
      intro x hx
      rw [List.any_eq_true] at ha
      intro hpx
      exact ha ⟨x, hx, hpx⟩
    rw [List.filter_append, hf]
    simp [keyMatch, hv]

/-- C1: upserting canonical entries e1 then e2 with the same
`(feed_id, remote_id)` key into a table satisfying the unique-key
constraint leaves exactly one row for that key; its source-derived columns
hold e2's values and its store-managed `updated` stamp is the second
write's clock, while the favorited, pinned and deleted markers keep
exactly the values the row had after the e1 write — the upsert's update
set never touches them. -/
theorem C1_upsert_overwrites_values_keeps_markers
    (table : List Entry) (feedId : Nat) (now1 now2 : Time)
    (e1 e2 : CanonicalEntry) (hkey : e1.remote_id = e2.remote_id)
    (huniq : (table.filter (keyMatch feedId e2.remote_id)).length ≤ 1) :
    ∃ r1 r2 : Entry,
      (upsert_entries feedId now1 [e1] table).filter
        (keyMatch feedId e2.remote_id) = [r1] ∧
      (upsert_entries feedId now2 [e2]
        (upsert_entries feedId now1 [e1] table)).filter
          (keyMatch feedId e2.remote_id) = [r2] ∧
      r2.vals = e2 ∧ r2.updated = now2 ∧
      r2.deleted = r1.deleted ∧ r2.favorited = r1.favorited ∧
      r2.pinned = r1.pinned := by
  have hone : ∀ (now : Time) (v : CanonicalEntry) (t : List Entry),
      upsert_entries feedId now [v] t = upsertOne now feedId v t := by
    intro now v t; rfl
  rw [hone, hone]
  have h1 := upsertOne_filter now1 feedId e1 e2.remote_id hkey table huniq
  rcases hf : table.filter (keyMatch feedId e2.remote_id) with _ | ⟨r0, rest⟩
  · rw [hf] at h1
    have h1' : (upsertOne now1 feedId e1 table).filter
        (keyMatch feedId e2.remote_id) =
        [{ id := table.length, feed_id := feedId, vals := e1, created := now1, updated := now1 }] := h1
    have h2 := upsertOne_filter now2 feedId e2 e2.remote_id rfl
      (upsertOne now1 feedId e1 table) (by rw [h1']; simp)
    rw [h1'] at h2
    exact ⟨_, _, h1', h2, rfl, rfl, rfl, rfl, rfl⟩
  · rw [hf] at h1
    have h1' : (upsertOne now1 feedId e1 table).filter
        (keyMatch feedId e2.remote_id) =
        [{ id := r0.id, feed_id := feedId, vals := e1, created := r0.created, updated := now1, deleted := r0.deleted, favorited := r0.favorited, pinned := r0.pinned }] := h1
    have h2 := upsertOne_filter now2 feedId e2 e2.remote_id rfl
      (upsertOne now1 feedId e1 table) (by rw [h1']; simp)
    rw [h1'] at h2
    exact ⟨_, _, h1', h2, rfl, rfl, rfl, rfl, rfl⟩

/-- C1 witness: the double upsert evaluated on the empty table with two
canonical entries sharing remote id r. -/
theorem C1_upsert_overwrites_values_keeps_markers_witness :
    ∃ r1 r2 : Entry,
      (upsert_entries 1 5 [mkVals "r" 10] []).filter (keyMatch 1 "r") = [r1] ∧
      (upsert_entries 1 9 [mkVals "r" 20]
        (upsert_entries 1 5 [mkVals "r" 10] [])).filter (keyMatch 1 "r") = [r2] ∧
      r2.vals = mkVals "r" 20 ∧ r2.updated = 9 ∧
      r2.deleted = r1.deleted ∧ r2.favorited = r1.favorited ∧
      r2.pinned = r1.pinned :=
  C1_upsert_overwrites_values_keeps_markers [] 1 5 9
    (mkVals "r" 10) (mkVals "r" 20) rfl (by decide)

/-- Inverting a successful `Except` bind. -/
theorem bind_ok {α β : Type} {x : Except String α} {f : α → Except String β}
    {b : β} (h : x >>= f = Except.ok b) :
    ∃ a, x = Except.ok a ∧ f a = Except.ok b := by
  cases x with
  | error e => simp [Bind.bind, Except.bind] at h
  | ok a => exact ⟨a, rfl, by simpa [Bind.bind, Except.bind] using h⟩

/-- A successful required-field access means the field was present. -/
theorem req_ok {α : Type} {k : String} {o : Option α} {a : α}
    (h : req k o = Except.ok a) : o = some a := by
  cases o with
  | none => simp [req] at h
  | some b => simp [req] at h; rw [h]

/-- A successful `parse_remote_updated` reads a present `updated_parsed`. -/
theorem parse_remote_updated_ok {e : RawEntry} {u : Time}
    (h : BaseParser.parse_remote_updated e = Except.ok u) :
    ∃ t, e.updated_parsed = some t ∧ u = to_datetime t := by
  unfold BaseParser.parse_remote_updated at h
  obtain ⟨a, ha, h⟩ := bind_ok h
  have := req_ok ha
  refine ⟨a, this, ?_⟩
  simpa [Pure.pure, Except.pure] using h.symm

/-- Successful normalization determines every canonical field from the
bound intermediate results; in particular `remote_updated` is the parsed
`updated_parsed` value. -/
theorem parse_ok_remote_updated {e : RawEntry} {v : CanonicalEntry}
    (h : BaseParser.parse e = Except.ok v) :
    ∃ t, e.updated_parsed = some t ∧ v.remote_updated = to_datetime t := by
  unfold BaseParser.parse at h
  split at h
  · simp [throw, throwThe, MonadExceptOf.throw, Bind.bind, Except.bind] at h
  · obtain ⟨u0, h0, h⟩ := bind_ok h
    obtain ⟨a1, h1, h⟩ := bind_ok h
    obtain ⟨a2, h2, h⟩ := bind_ok h
    obtain ⟨a3, h3, h⟩ := bind_ok h
    obtain ⟨a4, h4, h⟩ := bind_ok h
    obtain ⟨a5, h5, h⟩ := bind_ok h
    obtain ⟨a6, h6, h⟩ := bind_ok h
    obtain ⟨a7, h7, h⟩ := bind_ok h
    obtain ⟨a8, h8, h⟩ := bind_ok h
    obtain ⟨a9, h9, h⟩ := bind_ok h
    obtain ⟨t, ht, hu⟩ := parse_remote_updated_ok h9
    have hv : v = { title := a1, title_url := a2, avatar_url := a3,
                    username := a4, body := a5, media_url := a6,
                    remote_id := a7, remote_created := a8,
                    remote_updated := a9 } := by
      simpa [Pure.pure, Except.pure] using h.symm
    exact ⟨t, ht, by rw [hv, ← hu]⟩

/-- C9 counterexample: a raw entry with link, summary, title, id and a
source created time but no source updated time is rejected by the
normalizer with a KeyError, instead of producing a canonical entry with
`remote_updated` defaulted to `remote_created`. -/
theorem C9_counterexample :
    rawMissingUpdated.published_parsed = some 100 ∧
    rawMissingUpdated.link.isSome = true ∧
    rawMissingUpdated.summary.isSome = true ∧
    BaseParser.parse rawMissingUpdated =
      Except.error "KeyError: updated_parsed" := by decide

/-- C9 amended: the base normalizer requires the source updated time —
an entry whose `updated_parsed` is absent fails normalization (and is
skipped by the sync loop) rather than defaulting `remote_updated` to
`remote_created`; whenever normalization succeeds, `remote_updated` equals
the parsed source updated time, so stored rows always carry a non-null
`remote_updated`. -/
theorem C9_remote_updated_requires_source_updated :
    (∀ (e : RawEntry) (v : CanonicalEntry),
      BaseParser.parse e = Except.ok v →
      ∃ t, e.updated_parsed = some t ∧ v.remote_updated = to_datetime t) ∧
    (∀ e : RawEntry, e.updated_parsed = none →
      ∀ v : CanonicalEntry, ¬ BaseParser.parse e = Except.ok v) := by
  refine ⟨fun e v h => parse_ok_remote_updated h, ?_⟩
  intro e hn v hok
  obtain ⟨t, ht, _⟩ := parse_ok_remote_updated hok
  rw [hn] at ht
  cases ht

/-- C9 amendment witness: a fully-populated raw entry parses with
`remote_updated` taken from its `updated_parsed`, and the
missing-updated-time entry is rejected. -/
theorem C9_remote_updated_requires_source_updated_witness :
    (∃ t, (goodRaw "a").updated_parsed = some t ∧
      goodParsed.remote_updated = to_datetime t) ∧
    ¬ BaseParser.parse rawMissingUpdated = Except.ok goodParsed :=
  ⟨C9_remote_updated_requires_source_updated.1 (goodRaw "a") goodParsed
     (by decide),
   C9_remote_updated_requires_source_updated.2 rawMissingUpdated rfl
     goodParsed⟩

/-- C8: a raw entry missing its link or its summary payload fails
normalization with the malformed-entry error, and the per-feed sync loop
drops exactly the failing entries — syncing a batch containing a failing
entry equals syncing the batch with that entry removed, so one malformed
entry never aborts the feed's sync. -/
theorem C8_malformed_entry_skipped :
    (∀ e : RawEntry, e.link = none ∨ e.summary = none →
      BaseParser.parse e = Except.error "entry seems malformed") ∧
    (∀ (feedId : Nat) (now : Time) (table : List Entry)
       (pre post : List RawEntry) (e : RawEntry) (msg : String),
      BaseParser.parse e = Except.error msg →
      sync_feed_entries feedId now (pre ++ e :: post) table =
        sync_feed_entries feedId now (pre ++ post) table) := by
  constructor
  · intro e h
    have hc : (e.link.isNone || e.summary.isNone) = true := by
      rcases h with h | h <;> simp [h]
    unfold BaseParser.parse
    split
    · simp [throw, throwThe, MonadExceptOf.throw, Bind.bind, Except.bind]
    · simp_all
  · intro feedId now table pre post e msg h
    unfold sync_feed_entries
    rw [List.foldl_append, List.foldl_append]
    simp only [List.foldl_cons, h]

/-- C8 witness: the entry with no summary is rejected with the
malformed-entry error, and syncing a batch of two good entries with the
malformed one in the middle equals syncing just the two good entries. -/
theorem C8_malformed_entry_skipped_witness :
    BaseParser.parse rawNoSummary = Except.error "entry seems malformed" ∧
    sync_feed_entries 1 0 [goodRaw "a", rawNoSummary, goodRaw "b"] [] =
      sync_feed_entries 1 0 [goodRaw "a", goodRaw "b"] [] :=
  ⟨C8_malformed_entry_skipped.1 rawNoSummary (Or.inr rfl),
   C8_malformed_entry_skipped.2 1 0 [] [goodRaw "a"] [goodRaw "b"]
     rawNoSummary _
     (C8_malformed_entry_skipped.1 rawNoSummary (Or.inr rfl))⟩

/-- C4 amendment witness: the mastodon-wins case on the github/mastodon
example feed, and the github case on the same URL without generator
metadata. -/
theorem C4_declaration_order_selection_witness :
    select_parser_cls githubMastodonUrl githubMastodonFeed =
      ParserKind.mastodonUser ∧
    select_parser_cls githubMastodonUrl plainFeedData =
      ParserKind.githubFeed :=
  ⟨C4_declaration_order_selection.1 githubMastodonUrl githubMastodonFeed
     (by decide) (by decide),
   C4_declaration_order_selection.2 githubMastodonUrl plainFeedData
     (by decide) (by decide) (by decide)⟩

/-- C7: the chronological page contains at most `limit` entries; with an
`older_than` cursor every returned entry matches the filters and has
`remote_updated` strictly below the cursor; the page is sorted by
`remote_updated` descending; and on entries with remote_updated
[10, 9, 8, 7] and limit 2, the first page is [10, 9] and the page at
cursor 9 is [8, 7] — consecutive, without overlap or gap. -/
theorem C7_chronological_pagination :
    (∀ (db : DB) (limit : Nat) (ot : Option Time) (f : Filters),
      (select_page_chronologically db limit ot f).length ≤ limit) ∧
    (∀ (db : DB) (limit : Nat) (t : Time) (f : Filters) (e : Entry),
      e ∈ select_page_chronologically db limit (some t) f →
      e ∈ filtered_query db f ∧ e.remote_updated < t) ∧
    (∀ (db : DB) (limit : Nat) (ot : Option Time) (f : Filters),
      (select_page_chronologically db limit ot f).Pairwise
        remote_updated_desc) ∧
    (select_page_chronologically chronoDB 2 none {} =
        [mkEntry 1 1 "a" 10, mkEntry 2 1 "b" 9] ∧
      select_page_chronologically chronoDB 2 (some 9) {} =
        [mkEntry 3 1 "c" 8, mkEntry 4 1 "d" 7]) := by
  refine ⟨?_, ?_, ?_, by decide, by decide⟩
  · intro db limit ot f
    exact List.length_take_le _ _
  · intro db limit t f e h
    unfold select_page_chronologically at h
    have h1 := List.mem_of_mem_take h
    rw [List.mem_insertionSort] at h1
    have h2 := List.mem_filter.mp h1
    exact ⟨h2.1, of_decide_eq_true h2.2⟩
  · intro db limit ot f
    unfold select_page_chronologically
    exact List.Pairwise.sublist (List.take_sublist _ _)
      (List.sorted_insertionSort remote_updated_desc _)

/-- C7 witness: the membership bound applied to the entry with
remote_updated 8 of the second page at cursor 9. -/
theorem C7_chronological_pagination_witness :
    mkEntry 3 1 "c" 8 ∈ filtered_query chronoDB {} ∧
    (mkEntry 3 1 "c" 8).remote_updated < 9 :=
  C7_chronological_pagination.2.1 chronoDB 2 9 {} (mkEntry 3 1 "c" 8)
    (by decide)

/-- C10: all three retrievals go through the base filtered query, which
unconditionally partitions on the soft-delete marker: with the deleted
filter unset every returned entry has a null `deleted` marker, and with it
set every returned entry has a non-null one. -/
theorem C10_soft_delete_partition :
    ∀ (db : DB) (f : Filters) (limit : Nat) (ot : Option Time)
      (start_at : Time) (page : Nat) (now : Time) (e : Entry),
      (e ∈ select_pinned db f ∨
       e ∈ select_page_chronologically db limit ot f ∨
       e ∈ select_page_by_frequency db f limit start_at page now) →
      (f.deleted = true → e.deleted.isSome = true) ∧
      (f.deleted = false → e.deleted = none) := by
  intro db f limit ot start_at page now e h
  have hmem : e ∈ filtered_query db f := by
    rcases h with h | h | h
    · unfold select_pinned at h
      rw [List.mem_insertionSort] at h
      exact (List.mem_filter.mp h).1
    · unfold select_page_chronologically at h
      have h1 := List.mem_of_mem_take h
      rw [List.mem_insertionSort] at h1
      cases ot with
      | none => exact h1
      | some t => exact (List.mem_filter.mp h1).1
    · unfold select_page_by_frequency at h
      have h1 := List.mem_of_mem_take (List.mem_of_mem_drop
        (List.mem_of_mem_take h))
      unfold freq_ordered at h1
      rw [List.mem_insertionSort] at h1
      unfold freq_joined at h1
      exact (List.mem_filter.mp h1).1
  have hcond := (List.mem_filter.mp hmem).2
  simp only [Bool.and_eq_true] at hcond
  have hdel := hcond.1.1.1.1
  constructor
  · intro hd
    rw [hd] at hdel
    simpa using hdel
  · intro hd
    rw [hd] at hdel
    simpa [Option.isNone_iff_eq_none] using hdel

/-- C10 witness: the partition evaluated on the chronological example,
whose filter leaves the deleted flag unset. -/
theorem C10_soft_delete_partition_witness :
    ((Filters.deleted {} : Bool) = true →
      (mkEntry 1 1 "a" 10).deleted.isSome = true) ∧
    ((Filters.deleted {} : Bool) = false →
      (mkEntry 1 1 "a" 10).deleted = none) :=
  C10_soft_delete_partition chronoDB {} 4 none 0 1 0 (mkEntry 1 1 "a" 10)
    (Or.inr (Or.inl (by decide)))

/-- C5: the frequency-weighted sequence is sorted by its ORDER BY
relation; that relation never lets an entry older than 48 hours before
`start_at` precede one from within the 48-hour window, whatever the two
feed ranks; within equal recency buckets it orders by ascending rank and
then `remote_updated` descending; in the output no old entry appears
before a recent one; and on the concrete example (`start_at = now = 0`)
the rank-5 feed's entry updated one hour before precedes the rank-1
feed's entry updated 72 hours before. -/
theorem C5_recency_bucket_overrides_rank :
    (∀ (db : DB) (f : Filters) (now start_at : Time),
      (freq_ordered db f now start_at).Pairwise (freq_le db now start_at)) ∧
    (∀ (db : DB) (now start_at : Time) (a b : Entry),
      start_at - hours 48 ≤ a.remote_updated →
      b.remote_updated < start_at - hours 48 →
      b.remote_updated < start_at →
      ¬ freq_le db now start_at b a) ∧
    (∀ (db : DB) (now start_at : Time) (a b : Entry),
      oldBucket start_at a = oldBucket start_at b →
      (freq_le db now start_at a b ↔
        ((entryRank db now a).getD 0 < (entryRank db now b).getD 0 ∨
         ((entryRank db now a).getD 0 = (entryRank db now b).getD 0 ∧
          b.remote_updated ≤ a.remote_updated)))) ∧
    (∀ (db : DB) (f : Filters) (now start_at : Time) (l1 l2 : List Entry)
       (x y : Entry),
      freq_ordered db f now start_at = l1 ++ x :: l2 → y ∈ l2 →
      x.remote_updated < start_at - hours 48 →
      x.remote_updated < start_at →
      start_at - hours 48 ≤ y.remote_updated → False) ∧
    (freq_ordered freqDB {} 0 0).take 2 =
      [entryRecentRank5, entryOldRank1] := by
  have hrecent : ∀ (start_at : Time) (a : Entry),
      start_at - hours 48 ≤ a.remote_updated →
      oldBucket start_at a = false := by
    intro start_at a ha
    unfold oldBucket
    rw [decide_eq_false (not_lt.mpr ha), Bool.and_false]
  have hold : ∀ (start_at : Time) (b : Entry),
      b.remote_updated < start_at - hours 48 → b.remote_updated < start_at →
      oldBucket start_at b = true := by
    intro start_at b hb1 hb2
    unfold oldBucket
    rw [decide_eq_true hb1, decide_eq_true hb2, Bool.and_self]
  have hnotle : ∀ (db : DB) (now start_at : Time) (a b : Entry),
      start_at - hours 48 ≤ a.remote_updated →
      b.remote_updated < start_at - hours 48 →
      b.remote_updated < start_at →
      ¬ freq_le db now start_at b a := by
    intro db now start_at a b ha hb1 hb2 hle
    unfold freq_le lex3Le freq_key at hle
    rw [hrecent start_at a ha, hold start_at b hb1 hb2] at hle
    simp only [Bool.toNat_true, Bool.toNat_false] at hle
    omega
  have hsorted : ∀ (db : DB) (f : Filters) (now start_at : Time),
      (freq_ordered db f now start_at).Pairwise
        (freq_le db now start_at) := by
    intro db f now start_at
    exact List.sorted_insertionSort (freq_le db now start_at) _
  refine ⟨hsorted, hnotle, ?_, ?_, by decide⟩
  · intro db now start_at a b hbuck
    simp only [freq_le, lex3Le, freq_key, hbuck, lt_irrefl, false_or,
      true_and]
    constructor
    · intro h
      rcases h with h | ⟨h1, h2⟩
      · exact Or.inl h
      · exact Or.inr ⟨h1, le_of_neg_le_neg h2⟩
    · intro h
      rcases h with h | ⟨h1, h2⟩
      · exact Or.inl h
      · exact Or.inr ⟨h1, neg_le_neg h2⟩
  · intro db f now start_at l1 l2 x y heq hy hx1 hx2 hyr
    have hp := hsorted db f now start_at
    rw [heq] at hp
    have hp2 := (List.pairwise_append.mp hp).2.1
    have hxy := (List.pairwise_cons.mp hp2).1 y hy
    exact hnotle db now start_at y x hyr hx1 hx2 hxy

/-- C5 witness: the strict bucket priority applied to the two concrete
entries of the frequency example. -/
theorem C5_recency_bucket_overrides_rank_witness :
    ¬ freq_le freqDB 0 0 entryOldRank1 entryRecentRank5 :=
  C5_recency_bucket_overrides_rank.2.1 freqDB 0 0
    entryRecentRank5 entryOldRank1 (by decide) (by decide) (by decide)

/-- C6: on a database whose only feed has no entry inside the 14-day
window, the frequency-weighted query's inner join with the rank subquery
drops every entry — every page is empty — while the chronological query
still returns the feed's entry; the frequency-weighted view therefore
does exclude entries of stale feeds rather than merely reordering them. -/
theorem C6_stale_feed_truncated :
    freq_ordered staleDB {} 0 0 = [] ∧
    (∀ page : Nat, select_page_by_frequency staleDB {} 100 0 page 0 = []) ∧
    select_page_chronologically staleDB 100 none {} =
      [mkEntry 1 1 "x" (-1296000)] := by
  have h : freq_ordered staleDB {} 0 0 = [] := by decide
  refine ⟨h, ?_, by decide⟩
  intro page
  unfold select_page_by_frequency
  rw [h]
  simp

end Feedi
